import Mathlib

/-!
# Verification of the kervis-workflow scaffolding engine

Shallow embedding of `src/bin/kervis-workflow.mjs`: the argument parsing,
the config-file copy with its guards, and the recursive skills-directory
copy (`copyDir`), together with the exit-status and output-stream contract.

The filesystem is abstracted to the four paths the program touches:
the template config file, the destination config file, the skills source
tree and the skills destination tree.  File contents are byte lists.
-/

namespace KervisWorkflow

/-- A directory entry as seen by `fs.readdirSync(dir, withFileTypes := true)`:
a regular file (`entry.isFile()`), a directory (`entry.isDirectory()`), or
anything else (symlink, socket, ...) for which both predicates are false. -/
inductive Entry where
  | file (content : List Nat)
  | dir (entries : List (String × Entry))
  | other
deriving Repr

/-- Whether an entry is a directory (`entry.isDirectory()`). -/
def Entry.isDir : Entry → Bool
  | .dir _ => true
  | _ => false

/-- The body of `copyDir` applied to the entry list of a source directory:
`for (const entry of fs.readdirSync(srcDir, withFileTypes)) { if
(entry.isDirectory()) copyDir(src, dest); else if (entry.isFile())
fs.copyFileSync(src, dest); }` — files are copied byte-for-byte,
directories are recursed into, and any other entry kind is skipped.
The destination directory is freshly created (`mkdirSync recursive`), so the
result tree is exactly what the loop produces. -/
def copyEntries : List (String × Entry) → List (String × Entry)
  | [] => []
  | (n, .file c) :: rest => (n, .file c) :: copyEntries rest
  | (n, .dir es) :: rest => (n, .dir (copyEntries es)) :: copyEntries rest
  | (_, .other) :: rest => copyEntries rest
termination_by es => sizeOf es
decreasing_by all_goals (simp_wf; try omega)

/-- The byte content of the regular file reached from `e` by following the
relative path `p` (one component per directory level), if any.  Directory
lookup follows `readdir` semantics: the first entry with the given name. -/
def fileAt (e : Entry) (p : List String) : Option (List Nat) :=
  match p, e with
  | [], .file c => some c
  | [], _ => none
  | n :: p, .dir es =>
    match List.lookup n es with
    | some e2 => fileAt e2 p
    | none => none
  | _ :: _, _ => none

/-- Well-formedness of a directory entry list as a model of a real directory:
entry names are distinct at every level (a real `readdir` never reports the
same name twice). -/
def wfEntries : List (String × Entry) → Bool
  | [] => true
  | (n, .dir es) :: rest => (List.lookup n rest).isNone && wfEntries es && wfEntries rest
  | (n, .file _) :: rest => (List.lookup n rest).isNone && wfEntries rest
  | (n, .other) :: rest => (List.lookup n rest).isNone && wfEntries rest
termination_by es => sizeOf es
decreasing_by all_goals (simp_wf; try omega)

/-- The filesystem state the program observes and mutates, abstracted to the
four resolved paths: `templateAgents` (= `<pkg>/templates/AGENTS.md`),
`targetAgents` (= `<cwd>/AGENTS.md`), `skillsSource` (= `<pkg>/skills`) and
`skillsTarget` (= `<cwd>/skills`).  `none` means the path does not exist
(`fs.existsSync` is false). -/
structure World where
  templateAgents : Option (List Nat)
  targetAgents : Option (List Nat)
  skillsSource : Option Entry
  skillsTarget : Option Entry
deriving Repr

/-- Outcome of one process invocation: the exit status, the lines printed
with `console.log` (standard output), the lines printed with `console.error`
(standard error), and the final filesystem state. -/
structure RunResult where
  exitCode : Nat
  stdout : List String
  stderr : List String
  world : World
deriving Repr

/-- `console.error` line of the usage guard. -/
def usageMsg : String := "Usage: kervisworkflow init [--force] [--with-skills]"

/-- `console.error` line when the template file is absent.  The real message
interpolates the resolved absolute path, which this embedding does not
track. -/
def templateNotFoundMsg : String := "Template not found: <templateAgents>"

/-- `console.error` line when `AGENTS.md` already exists and `--force` was
not passed. -/
def agentsExistsMsg : String := "AGENTS.md already exists. Use --force to overwrite."

/-- `console.log` line after the config file copy. -/
def createdAgentsMsg : String := "Created AGENTS.md"

/-- `console.error` line when the skills source directory is absent.  The
real message interpolates the resolved absolute path, which this embedding
does not track. -/
def skillsNotFoundMsg : String := "Skills dir not found: <skillsSourceDir>"

/-- `console.log` line of the skills soft-skip. -/
def skippedSkillsMsg : String := "Skipped skills/ (already exists). Use --force to overwrite."

/-- `console.log` line after the skills tree copy. -/
def createdSkillsMsg : String := "Created skills/"

/-- Standard-error text of the uncaught exception thrown by
`fs.readdirSync` when the skills source path exists but is not a directory
(Node prints the error and exits with code 1). -/
def enotdirMsg : String := "ENOTDIR: not a directory, scandir <skillsSourceDir>"

/-- The scaffolding engine given the parsed invocation (`cmd`, `force`,
`withSkills`), transcribing `src/bin/kervis-workflow.mjs` top to bottom:

* `cmd !== "init"` → usage error, exit 1;
* template absent → error, exit 1;
* destination `AGENTS.md` present and no `force` → error, exit 1;
* `copyFileSync(templateAgents, targetAgents)`, log "Created AGENTS.md";
* with `withSkills`: skills source absent → error, exit 1; skills target
  present and no `force` → log the skip, exit 0; otherwise (after
  `rmSync(recursive, force)` of a present target) `copyDir` and log
  "Created skills/".  If the skills source exists but is not a directory,
  `mkdirSync` has already created the (empty) target and `readdirSync`
  throws, terminating the process with exit code 1. -/
def runParsed (cmd : String) (force withSkills : Bool) (w : World) : RunResult :=
  if cmd ≠ "init" then
    ⟨1, [], [usageMsg], w⟩
  else
    match w.templateAgents with
    | none => ⟨1, [], [templateNotFoundMsg], w⟩
    | some tmpl =>
      if w.targetAgents.isSome && !force then
        ⟨1, [], [agentsExistsMsg], w⟩
      else
        let w1 : World := { w with targetAgents := some tmpl }
        if !withSkills then
          ⟨0, [createdAgentsMsg], [], w1⟩
        else
          match w1.skillsSource with
          | none => ⟨1, [createdAgentsMsg], [skillsNotFoundMsg], w1⟩
          | some src =>
            if w1.skillsTarget.isSome && !force then
              ⟨0, [createdAgentsMsg, skippedSkillsMsg], [], w1⟩
            else
              match src with
              | .dir es =>
                ⟨0, [createdAgentsMsg, createdSkillsMsg], [],
                  { w1 with skillsTarget := some (.dir (copyEntries es)) }⟩
              | _ =>
                ⟨1, [createdAgentsMsg], [enotdirMsg],
                  { w1 with skillsTarget := some (.dir []) }⟩

/-- One invocation of `src/bin/kervis-workflow.mjs` with argument list
`args` (= `process.argv.slice(2)`) on filesystem `w`:
`cmd = args[0] ?? "init"`, `force = args.includes("--force")`,
`withSkills = args.includes("--with-skills")`, then the engine. -/
def run (args : List String) (w : World) : RunResult :=
  runParsed (args.headD "init") (args.contains "--force")
    (args.contains "--with-skills") w

/-! ## Lemmas about the recursive directory copy -/

theorem lookup_copyEntries_none {es : List (String × Entry)} {n : String}
    (h : List.lookup n es = none) : List.lookup n (copyEntries es) = none := by
  induction es with
  | nil => simp [copyEntries]
  | cons hd tl ih =>
    obtain ⟨k, e⟩ := hd
    cases hk : (n == k) with
    | true =>
      simp only [List.lookup, hk] at h
      exact Option.noConfusion h
    | false =>
      simp only [List.lookup, hk] at h
      cases e <;> simp only [copyEntries, List.lookup, hk] <;> exact ih h

theorem lookup_copyEntries_file {es : List (String × Entry)} {n : String}
    {c : List Nat} (h : List.lookup n es = some (.file c)) :
    List.lookup n (copyEntries es) = some (.file c) := by
  induction es with
  | nil => simp [List.lookup] at h
  | cons hd tl ih =>
    obtain ⟨k, e⟩ := hd
    cases hk : (n == k) with
    | true =>
      simp only [List.lookup, hk] at h
      cases e <;> simp_all [copyEntries, List.lookup, hk]
    | false =>
      simp only [List.lookup, hk] at h
      cases e <;> simp [copyEntries, List.lookup, hk] <;> exact ih h

theorem lookup_copyEntries_dir {es : List (String × Entry)} {n : String}
    {es2 : List (String × Entry)} (h : List.lookup n es = some (.dir es2)) :
    List.lookup n (copyEntries es) = some (.dir (copyEntries es2)) := by
  induction es with
  | nil => simp [List.lookup] at h
  | cons hd tl ih =>
    obtain ⟨k, e⟩ := hd
    cases hk : (n == k) with
    | true =>
      simp only [List.lookup, hk] at h
      cases e <;> simp_all [copyEntries, List.lookup, hk]
    | false =>
      simp only [List.lookup, hk] at h
      cases e <;> simp [copyEntries, List.lookup, hk] <;> exact ih h

/-- Forward fidelity of `copyDir`, unconditionally: every regular file of
the source tree appears at the same relative path in the copied tree with
the same byte content. -/
theorem fileAt_copyEntries_of_fileAt {p : List String} :
    ∀ {es : List (String × Entry)} {c : List Nat},
      fileAt (.dir es) p = some c → fileAt (.dir (copyEntries es)) p = some c := by
  induction p with
  | nil => intro es c h; simp [fileAt] at h
  | cons n p ih =>
    intro es c h
    rw [fileAt] at h ⊢
    cases hl : List.lookup n es with
    | none => rw [hl] at h; exact absurd h (by simp)
    | some e2 =>
      rw [hl] at h
      cases e2 with
      | file c2 => rw [lookup_copyEntries_file hl]; exact h
      | dir es2 =>
        rw [lookup_copyEntries_dir hl]
        exact ih h
      | other => cases p <;> simp [fileAt] at h

theorem wfEntries_lookup_dir {es es2 : List (String × Entry)} {n : String}
    (hwf : wfEntries es = true) (h : List.lookup n es = some (.dir es2)) :
    wfEntries es2 = true := by
  induction es with
  | nil => simp [List.lookup] at h
  | cons hd tl ih =>
    obtain ⟨k, e⟩ := hd
    cases hk : (n == k) with
    | true =>
      simp only [List.lookup, hk] at h
      cases e with
      | file c => exact absurd h (by simp)
      | other => exact absurd h (by simp)
      | dir es3 =>
        injection h with h2
        injection h2 with h3
        subst h3
        simp only [wfEntries, Bool.and_eq_true] at hwf
        exact hwf.1.2
    | false =>
      simp only [List.lookup, hk] at h
      have htl : wfEntries tl = true := by
        cases e <;> simp only [wfEntries, Bool.and_eq_true] at hwf <;> tauto
      exact ih htl h

theorem lookup_copyEntries_eq {es : List (String × Entry)}
    (hwf : wfEntries es = true) (n : String) :
    List.lookup n (copyEntries es) =
      (match List.lookup n es with
       | some (.file c) => some (.file c)
       | some (.dir es2) => some (.dir (copyEntries es2))
       | _ => none) := by
  induction es with
  | nil => simp [copyEntries]
  | cons hd tl ih =>
    obtain ⟨k, e⟩ := hd
    cases hk : (n == k) with
    | false =>
      have htl : wfEntries tl = true := by
        cases e <;> simp only [wfEntries, Bool.and_eq_true] at hwf <;> tauto
      cases e <;> simp only [copyEntries, List.lookup, hk] <;> exact ih htl
    | true =>
      have hnk : n = k := beq_iff_eq.mp hk
      cases e with
      | file c => simp [copyEntries, List.lookup, hk]
      | dir es2 => simp [copyEntries, List.lookup, hk]
      | other =>
        simp only [wfEntries, Bool.and_eq_true] at hwf
        simp only [copyEntries, List.lookup, hk]
        subst hnk
        exact lookup_copyEntries_none (Option.isNone_iff_eq_none.mp hwf.1)

/-- Exact-mirror property of `copyDir` on well-formed source trees: the
copied tree holds a regular file at a relative path exactly when the source
does, with the same byte content. -/
theorem fileAt_copyEntries_eq {p : List String} :
    ∀ {es : List (String × Entry)}, wfEntries es = true →
      fileAt (.dir (copyEntries es)) p = fileAt (.dir es) p := by
  induction p with
  | nil => intro es _; simp [fileAt]
  | cons n p ih =>
    intro es hwf
    rw [fileAt, fileAt, lookup_copyEntries_eq hwf n]
    cases hl : List.lookup n es with
    | none => simp
    | some e2 =>
      cases e2 with
      | file c2 => simp
      | dir es2 => simpa using ih (wfEntries_lookup_dir hwf hl)
      | other => cases p <;> simp [fileAt]

/-- If the engine printed "Created skills/", it took the directory-copy
branch: the skills source is a directory and the final skills target is its
`copyDir` image. -/
theorem runParsed_created_skills {c : String} {f ws : Bool} {w : World}
    (hsucc : createdSkillsMsg ∈ (runParsed c f ws w).stdout) :
    ∃ es, w.skillsSource = some (.dir es) ∧
      (runParsed c f ws w).world.skillsTarget = some (.dir (copyEntries es)) := by
  by_cases hc : c = "init"
  · subst hc
    cases htmpl : w.templateAgents with
    | none =>
      exact absurd hsucc
        (by simp [runParsed, htmpl, createdSkillsMsg])
    | some tmpl =>
      by_cases htgt : (w.targetAgents.isSome && !f) = true
      · exact absurd hsucc
          (by simp [runParsed, htmpl, htgt, createdSkillsMsg])
      · rw [Bool.not_eq_true] at htgt
        cases hws : ws with
        | false =>
          exact absurd hsucc
            (by simp [runParsed, htmpl, htgt, hws, createdSkillsMsg, createdAgentsMsg])
        | true =>
          cases hss : w.skillsSource with
          | none =>
            exact absurd hsucc
              (by simp [runParsed, htmpl, htgt, hws, hss, createdSkillsMsg, createdAgentsMsg])
          | some src =>
            by_cases hskip : (w.skillsTarget.isSome && !f) = true
            · exact absurd hsucc
                (by simp [runParsed, htmpl, htgt, hws, hss, hskip, createdSkillsMsg,
                      createdAgentsMsg, skippedSkillsMsg])
            · rw [Bool.not_eq_true] at hskip
              cases src with
              | dir es =>
                exact ⟨es, rfl, by simp [runParsed, htmpl, htgt, hws, hss, hskip]⟩
              | file cc =>
                exact absurd hsucc
                  (by simp [runParsed, htmpl, htgt, hws, hss, hskip, createdSkillsMsg,
                        createdAgentsMsg])
              | other =>
                exact absurd hsucc
                  (by simp [runParsed, htmpl, htgt, hws, hss, hskip, createdSkillsMsg,
                        createdAgentsMsg])
  · exact absurd hsucc (by simp [runParsed, hc, createdSkillsMsg, usageMsg])

/-- Whenever the config copy's preconditions hold (destination absent or
`force` set), the engine writes the template bytes to the destination and
its first standard-output line is "Created AGENTS.md", whatever the skills
step then does. -/
theorem runParsed_config_proceeds {f ws : Bool} {w : World} {tmpl : List Nat}
    (htmpl : w.templateAgents = some tmpl)
    (hok : w.targetAgents = none ∨ f = true) :
    (runParsed "init" f ws w).world.targetAgents = some tmpl ∧
    (runParsed "init" f ws w).stdout.head? = some createdAgentsMsg := by
  have hguard : (w.targetAgents.isSome && !f) = false := by
    rcases hok with h | h <;> simp [h]
  cases hws : ws with
  | false => simp [runParsed, htmpl, hguard, hws]
  | true =>
    cases hss : w.skillsSource with
    | none => simp [runParsed, htmpl, hguard, hws, hss]
    | some src =>
      cases hsk : (w.skillsTarget.isSome && !f) with
      | true => cases src <;> simp [runParsed, htmpl, hguard, hws, hss, hsk]
      | false => cases src <;> simp [runParsed, htmpl, hguard, hws, hss, hsk]

theorem guard_false_cases {b f : Bool} (h : (b && !f) = false) :
    b = false ∨ f = true := by
  cases b <;> cases f <;> simp_all

theorem isSome_false_eq_none {α : Type} {o : Option α} (h : o.isSome = false) :
    o = none := by
  cases o <;> simp_all

theorem guard_true_cases {b f : Bool} (h : (b && !f) = true) :
    b = true ∧ f = false := by
  cases b <;> cases f <;> simp_all

/-- When the engine aborts because the skills source tree is absent:
exit 1 with the corresponding standard-error line. -/
theorem runParsed_skills_source_missing {f : Bool} {w : World} {tmpl : List Nat}
    (htmpl : w.templateAgents = some tmpl)
    (hok : w.targetAgents = none ∨ f = true)
    (hss : w.skillsSource = none) :
    (runParsed "init" f true w).exitCode = 1 ∧
    (runParsed "init" f true w).stderr = [skillsNotFoundMsg] := by
  have hguard : (w.targetAgents.isSome && !f) = false := by
    rcases hok with h | h <;> simp [h]
  simp [runParsed, htmpl, hguard, hss]

/-- The spec's enumeration of exit-1 conditions (§6, §7) over the parsed
invocation: usage error (command other than `init`); missing template;
existing config destination without the override; missing skills source
when the skills step is reached; or an I/O failure during the skills copy
(in this model: the skills source path exists but is not a directory, so
`readdirSync` throws once copying starts). -/
def errCondP (c : String) (f ws : Bool) (w : World) : Prop :=
  c ≠ "init" ∨
  (c = "init" ∧ w.templateAgents = none) ∨
  (c = "init" ∧ w.templateAgents.isSome = true ∧
    w.targetAgents.isSome = true ∧ f = false) ∨
  (c = "init" ∧ w.templateAgents.isSome = true ∧
    (w.targetAgents = none ∨ f = true) ∧ ws = true ∧ w.skillsSource = none) ∨
  (c = "init" ∧ w.templateAgents.isSome = true ∧
    (w.targetAgents = none ∨ f = true) ∧ ws = true ∧
    (∃ e, w.skillsSource = some e ∧ e.isDir = false) ∧
    (w.skillsTarget = none ∨ f = true))

/-- The spec's enumeration of exit-1 conditions for an invocation with raw
argument list `args`. -/
def errCond (args : List String) (w : World) : Prop :=
  errCondP (args.headD "init") (args.contains "--force")
    (args.contains "--with-skills") w

/-- Full exit-status and output-stream contract of the engine, by case
analysis over every branch. -/
theorem runParsed_contract (c : String) (f ws : Bool) (w : World) :
    ((runParsed c f ws w).exitCode = 0 ∨ (runParsed c f ws w).exitCode = 1) ∧
    ((runParsed c f ws w).exitCode = 1 ↔ errCondP c f ws w) ∧
    ((runParsed c f ws w).exitCode = 0 ↔ (runParsed c f ws w).stderr = []) ∧
    (∀ m ∈ (runParsed c f ws w).stdout,
      m = createdAgentsMsg ∨ m = skippedSkillsMsg ∨ m = createdSkillsMsg) ∧
    (∀ m ∈ (runParsed c f ws w).stderr,
      m = usageMsg ∨ m = templateNotFoundMsg ∨ m = agentsExistsMsg ∨
      m = skillsNotFoundMsg ∨ m = enotdirMsg) := by
  by_cases hc : c = "init"
  case neg => simp [runParsed, errCondP, hc]
  case pos =>
  subst hc
  cases htmpl : w.templateAgents with
  | none => simp [runParsed, errCondP, htmpl]
  | some tmpl =>
    cases hguard : (w.targetAgents.isSome && !f) with
    | true =>
      obtain ⟨h1, h2⟩ := guard_true_cases hguard
      simp [runParsed, errCondP, htmpl, hguard, h1, h2]
    | false =>
      have h3 : ¬(w.targetAgents.isSome = true ∧ f = false) := by
        rintro ⟨ha, hb⟩
        subst hb
        simp [ha] at hguard
      have hok : w.targetAgents = none ∨ f = true := by
        rcases guard_false_cases hguard with h | h
        · exact Or.inl (isSome_false_eq_none h)
        · exact Or.inr h
      cases hws : ws with
      | false => simp [runParsed, errCondP, htmpl, hguard, hws, h3]
      | true =>
        cases hss : w.skillsSource with
        | none => simp [runParsed, errCondP, htmpl, hguard, hws, hss, h3, hok]
        | some src =>
          cases hsk : (w.skillsTarget.isSome && !f) with
          | true =>
            obtain ⟨h4, h5⟩ := guard_true_cases hsk
            have h6 : ¬(w.skillsTarget = none ∨ f = true) := by
              rintro (h | h)
              · rw [h] at h4; simp at h4
              · rw [h] at h5; simp at h5
            cases src <;>
              simp [runParsed, errCondP, htmpl, hguard, hws, hss, hsk, h3, h6]
          | false =>
            have hok2 : w.skillsTarget = none ∨ f = true := by
              rcases guard_false_cases hsk with h | h
              · exact Or.inl (isSome_false_eq_none h)
              · exact Or.inr h
            cases src <;>
              simp [runParsed, errCondP, Entry.isDir, htmpl, hguard, hws, hss,
                hsk, h3, hok, hok2]

/-! ## Claim theorems -/

/-- **C1.** For every run with `--with-skills` where the skills copy reports
success ("Created skills/" on standard output), the skills source is a
directory tree, the destination tree is its `copyDir` image, and every file
present in the source tree is present in the destination tree at the same
relative path with identical byte content — no file of the source tree is
silently omitted. -/
theorem skills_copy_roundtrip (args : List String) (w : World)
    (hsucc : createdSkillsMsg ∈ (run args w).stdout) :
    ∃ es, w.skillsSource = some (.dir es) ∧
      (run args w).world.skillsTarget = some (.dir (copyEntries es)) ∧
      ∀ p c, fileAt (.dir es) p = some c →
        fileAt (.dir (copyEntries es)) p = some c := by
  rw [run] at hsucc ⊢
  obtain ⟨es, h1, h2⟩ := runParsed_created_skills hsucc
  exact ⟨es, h1, h2, fun p c h => fileAt_copyEntries_of_fileAt h⟩

/-- Concrete world for the C1 witness: a template file, an absent config
destination, a two-directory skills source, an absent skills destination. -/
def wRoundtrip : World :=
  ⟨some [7], none,
   some (.dir [("a", .dir [("one.md", .file [10])]),
               ("b", .dir [("two.md", .file [20])])]),
   none⟩

/-- Witness for **C1** at a concrete run. -/
theorem skills_copy_roundtrip_witness :
    ∃ es, wRoundtrip.skillsSource = some (.dir es) ∧
      (run ["init", "--with-skills"] wRoundtrip).world.skillsTarget
        = some (.dir (copyEntries es)) ∧
      ∀ p c, fileAt (.dir es) p = some c →
        fileAt (.dir (copyEntries es)) p = some c :=
  skills_copy_roundtrip ["init", "--with-skills"] wRoundtrip (by decide)

/-- **C2.** For every `init` run on an intact installation where the config
destination exists and `--force` was not passed: exit code 1, the only
message is the standard-error line naming `--force`, the filesystem
(destination content included) is unchanged, and nothing is printed on
standard output (in particular the skills step is never attempted, even
when `--with-skills` was passed). -/
theorem config_exists_without_force_aborts (args : List String) (w : World)
    (hcmd : args.headD "init" = "init")
    (htmpl : w.templateAgents.isSome = true)
    (hdst : w.targetAgents.isSome = true)
    (hforce : args.contains "--force" = false) :
    (run args w).exitCode = 1 ∧
    (run args w).stderr = [agentsExistsMsg] ∧
    agentsExistsMsg = "AGENTS.md already exists. Use " ++ "--force" ++ " to overwrite." ∧
    (run args w).world = w ∧
    (run args w).stdout = [] := by
  obtain ⟨tmpl, htmpl⟩ := Option.isSome_iff_exists.mp htmpl
  rw [run, hcmd, hforce]
  refine ⟨?_, ?_, rfl, ?_, ?_⟩ <;> simp [runParsed, htmpl, hdst]

/-- Witness for **C2** at a concrete run. -/
theorem config_exists_without_force_aborts_witness :
    (run ["init", "--with-skills"] ⟨some [1], some [2], none, none⟩).exitCode = 1 ∧
    (run ["init", "--with-skills"] ⟨some [1], some [2], none, none⟩).stderr = [agentsExistsMsg] ∧
    agentsExistsMsg = "AGENTS.md already exists. Use " ++ "--force" ++ " to overwrite." ∧
    (run ["init", "--with-skills"] ⟨some [1], some [2], none, none⟩).world
      = ⟨some [1], some [2], none, none⟩ ∧
    (run ["init", "--with-skills"] ⟨some [1], some [2], none, none⟩).stdout = [] :=
  config_exists_without_force_aborts ["init", "--with-skills"]
    ⟨some [1], some [2], none, none⟩ rfl rfl rfl rfl

/-- Concrete world with an existing config destination (content `[9]`) and a
template of content `[1, 2]`. -/
def wOverwrite : World := ⟨some [1, 2], some [9], none, none⟩

/-- Concrete world with the config destination absent and a template of
content `[1, 2]`. -/
def wFresh : World := ⟨some [1, 2], none, none, none⟩

/-- **C3, counterexample.** The claim says the reported outcome
distinguishes `created` (destination was absent) from `overwritten`
(existing destination replaced under `--force`).  It does not: an overwrite
run and a fresh-creation run produce identical reports — both print exactly
"Created AGENTS.md" and nothing else. -/
theorem config_report_not_distinguished :
    (run ["init", "--force"] wOverwrite).stdout = (run ["init"] wFresh).stdout ∧
    (run ["init", "--force"] wOverwrite).stderr = (run ["init"] wFresh).stderr ∧
    (run ["init", "--force"] wOverwrite).stdout = [createdAgentsMsg] := by
  decide

/-- **C3 (amended).** For every run where the config copy proceeds (the
destination was absent, or `--force` was passed), the destination is copied
byte-for-byte from the source, and the run reports "Created AGENTS.md" —
the same message in both the created and the overwritten case, with no
distinction between them. -/
theorem config_copy_byte_for_byte (args : List String) (w : World) (tmpl : List Nat)
    (hcmd : args.headD "init" = "init")
    (htmpl : w.templateAgents = some tmpl)
    (hok : w.targetAgents = none ∨ args.contains "--force" = true) :
    (run args w).world.targetAgents = some tmpl ∧
    (run args w).stdout.head? = some createdAgentsMsg := by
  rw [run, hcmd]
  exact runParsed_config_proceeds htmpl hok

/-- Witness for **C3 (amended)** at a concrete overwrite run. -/
theorem config_copy_byte_for_byte_witness :
    (run ["init", "--force"] wOverwrite).world.targetAgents = some [1, 2] ∧
    (run ["init", "--force"] wOverwrite).stdout.head? = some createdAgentsMsg :=
  config_copy_byte_for_byte ["init", "--force"] wOverwrite [1, 2] rfl rfl (Or.inr rfl)

/-- **C4.** For every `init --with-skills --force` run on an intact
installation where the skills destination already exists: the old
destination tree is removed and replaced by the `copyDir` image of the
source, which holds a regular file at a relative path exactly when the
source does (with the same bytes) — in particular any stray file present
in the old destination but absent from the source no longer exists (full
replace, not merge).  Well-formedness of the source tree (distinct entry
names per directory, as on a real filesystem) is assumed. -/
theorem skills_force_full_replace (args : List String) (w : World)
    (es : List (String × Entry))
    (hcmd : args.headD "init" = "init")
    (hws : args.contains "--with-skills" = true)
    (hforce : args.contains "--force" = true)
    (htmpl : w.templateAgents.isSome = true)
    (hss : w.skillsSource = some (.dir es))
    (hwf : wfEntries es = true)
    (_htgt : w.skillsTarget.isSome = true) :
    (run args w).world.skillsTarget = some (.dir (copyEntries es)) ∧
    (∀ p, fileAt (.dir (copyEntries es)) p = fileAt (.dir es) p) ∧
    ∀ p, fileAt (.dir es) p = none → fileAt (.dir (copyEntries es)) p = none := by
  obtain ⟨tmpl, htmpl⟩ := Option.isSome_iff_exists.mp htmpl
  rw [run, hcmd, hws, hforce]
  refine ⟨?_, fun p => fileAt_copyEntries_eq hwf,
    fun p hp => (fileAt_copyEntries_eq hwf).trans hp⟩
  simp [runParsed, htmpl, hss]

/-- Concrete world for the C4 witness: the skills destination holds a stray
file `c/old.md` absent from the source. -/
def wStray : World :=
  ⟨some [1], none,
   some (.dir [("a", .dir [("one.md", .file [10])])]),
   some (.dir [("c", .dir [("old.md", .file [30])])])⟩

/-- Witness for **C4** at a concrete run. -/
theorem skills_force_full_replace_witness :
    (run ["init", "--with-skills", "--force"] wStray).world.skillsTarget
      = some (.dir (copyEntries [("a", .dir [("one.md", .file [10])])])) ∧
    (∀ p, fileAt (.dir (copyEntries [("a", .dir [("one.md", .file [10])])])) p
      = fileAt (.dir [("a", .dir [("one.md", .file [10])])]) p) ∧
    ∀ p, fileAt (.dir [("a", .dir [("one.md", .file [10])])]) p = none →
      fileAt (.dir (copyEntries [("a", .dir [("one.md", .file [10])])])) p = none :=
  skills_force_full_replace ["init", "--with-skills", "--force"] wStray
    [("a", .dir [("one.md", .file [10])])] rfl rfl rfl rfl rfl (by simp [wfEntries]) rfl

/-- **C5.** For every `init --with-skills` run without `--force` on an
intact installation where the config destination is absent (so the config
step succeeds) and the skills destination already exists: the run exits 0,
reports the skip on standard output, prints nothing on standard error, and
leaves the pre-existing skills destination tree unchanged — a soft skip,
unlike the fatal config-file case. -/
theorem skills_soft_skip (args : List String) (w : World)
    (hcmd : args.headD "init" = "init")
    (hws : args.contains "--with-skills" = true)
    (hforce : args.contains "--force" = false)
    (htmpl : w.templateAgents.isSome = true)
    (htgt : w.targetAgents = none)
    (hss : w.skillsSource.isSome = true)
    (hskt : w.skillsTarget.isSome = true) :
    (run args w).exitCode = 0 ∧
    skippedSkillsMsg ∈ (run args w).stdout ∧
    (run args w).world.skillsTarget = w.skillsTarget ∧
    (run args w).stderr = [] := by
  obtain ⟨tmpl, htmpl⟩ := Option.isSome_iff_exists.mp htmpl
  obtain ⟨src, hss⟩ := Option.isSome_iff_exists.mp hss
  rw [run, hcmd, hws, hforce]
  refine ⟨?_, ?_, ?_, ?_⟩ <;> simp [runParsed, htmpl, htgt, hss, hskt]

/-- Concrete world for the C5 witness. -/
def wSkip : World :=
  ⟨some [1], none, some (.dir [("a", .file [10])]), some (.dir [("b", .file [20])])⟩

/-- Witness for **C5** at a concrete run. -/
theorem skills_soft_skip_witness :
    (run ["init", "--with-skills"] wSkip).exitCode = 0 ∧
    skippedSkillsMsg ∈ (run ["init", "--with-skills"] wSkip).stdout ∧
    (run ["init", "--with-skills"] wSkip).world.skillsTarget = wSkip.skillsTarget ∧
    (run ["init", "--with-skills"] wSkip).stderr = [] :=
  skills_soft_skip ["init", "--with-skills"] wSkip rfl rfl rfl rfl rfl rfl rfl

/-- **C6.** Installation-integrity failures are fatal: (a) for every `init`
run with the template file absent, and (b) for every `init --with-skills`
run where the config step succeeded but the skills source directory is
absent, the run exits 1 with the corresponding error message on standard
error rather than skipping or proceeding. -/
theorem missing_source_artifact_fatal :
    (∀ (args : List String) (w : World), args.headD "init" = "init" →
      w.templateAgents = none →
      (run args w).exitCode = 1 ∧ (run args w).stderr = [templateNotFoundMsg]) ∧
    (∀ (args : List String) (w : World), args.headD "init" = "init" →
      args.contains "--with-skills" = true →
      w.templateAgents.isSome = true →
      (w.targetAgents = none ∨ args.contains "--force" = true) →
      w.skillsSource = none →
      (run args w).exitCode = 1 ∧ (run args w).stderr = [skillsNotFoundMsg]) := by
  constructor
  · intro args w hcmd htmpl
    rw [run, hcmd]
    simp [runParsed, htmpl]
  · intro args w hcmd hws htmpl hok hss
    obtain ⟨tmpl, htmpl⟩ := Option.isSome_iff_exists.mp htmpl
    rw [run, hcmd, hws]
    exact runParsed_skills_source_missing htmpl hok hss

/-- Witness for **C6**: both failure kinds at concrete runs. -/
theorem missing_source_artifact_fatal_witness :
    ((run ["init"] ⟨none, none, none, none⟩).exitCode = 1 ∧
     (run ["init"] ⟨none, none, none, none⟩).stderr = [templateNotFoundMsg]) ∧
    ((run ["init", "--with-skills"] ⟨some [1], none, none, none⟩).exitCode = 1 ∧
     (run ["init", "--with-skills"] ⟨some [1], none, none, none⟩).stderr
       = [skillsNotFoundMsg]) :=
  ⟨missing_source_artifact_fatal.1 ["init"] ⟨none, none, none, none⟩ rfl rfl,
   missing_source_artifact_fatal.2 ["init", "--with-skills"]
     ⟨some [1], none, none, none⟩ rfl rfl rfl (Or.inl rfl) rfl⟩

/-- **C7.** Exit-status and output-stream contract: the exit code is always
0 or 1; it is 1 exactly under the spec's error conditions (usage error,
missing source artifact, existing config destination without `--force`, or
an I/O failure during the skills copy); it is 0 exactly when nothing was
printed on standard error; every standard-output line is a success or skip
message and every standard-error line is a hard-error message. -/
theorem exit_and_stream_contract (args : List String) (w : World) :
    ((run args w).exitCode = 0 ∨ (run args w).exitCode = 1) ∧
    ((run args w).exitCode = 1 ↔ errCond args w) ∧
    ((run args w).exitCode = 0 ↔ (run args w).stderr = []) ∧
    (∀ m ∈ (run args w).stdout,
      m = createdAgentsMsg ∨ m = skippedSkillsMsg ∨ m = createdSkillsMsg) ∧
    (∀ m ∈ (run args w).stderr,
      m = usageMsg ∨ m = templateNotFoundMsg ∨ m = agentsExistsMsg ∨
      m = skillsNotFoundMsg ∨ m = enotdirMsg) := by
  rw [run]
  exact runParsed_contract (args.headD "init") (args.contains "--force")
    (args.contains "--with-skills") w

/-- **C8.** An empty argument list behaves exactly as the bare `init`
command: the missing command token defaults to `init` with no flags. -/
theorem empty_args_defaults_to_init (w : World) :
    run [] w = run ["init"] w := rfl

/-- **C9.** After an `init` command token, only the presence of the exact
tokens `--force` and `--with-skills` matters: two runs whose remaining
arguments agree on those two memberships behave identically, so unknown or
misspelled flags are silently ignored and never cause a usage error. -/
theorem unknown_flags_ignored (rest rest' : List String) (w : World)
    (hf : rest.contains "--force" = rest'.contains "--force")
    (hws : rest.contains "--with-skills" = rest'.contains "--with-skills") :
    run ("init" :: rest) w = run ("init" :: rest') w := by
  rw [run, run]
  simp only [List.headD_cons, List.contains_cons]
  rw [hf, hws]

/-- Witness for **C9**: a run with a misspelled extra flag equals a run
with a different junk token, both carrying `--force`. -/
theorem unknown_flags_ignored_witness :
    run ["init", "--bogus", "--force"] wFresh
      = run ["init", "--force", "--junk"] wFresh :=
  unknown_flags_ignored ["--bogus", "--force"] ["--force", "--junk"] wFresh
    (by decide) (by decide)

/-- **C10.** For every invocation whose command token is not `init`: exit
code 1, the filesystem is untouched, nothing on standard output, and only
the usage line on standard error — no file or directory is created,
modified, or deleted. -/
theorem usage_error_no_filesystem_effect (args : List String) (w : World)
    (hcmd : args.headD "init" ≠ "init") :
    (run args w).exitCode = 1 ∧ (run args w).world = w ∧
    (run args w).stdout = [] ∧ (run args w).stderr = [usageMsg] := by
  rw [run]
  unfold runParsed
  rw [if_pos hcmd]
  exact ⟨rfl, rfl, rfl, rfl⟩

/-- Witness for **C10** at a concrete run. -/
theorem usage_error_no_filesystem_effect_witness :
    (run ["status"] wFresh).exitCode = 1 ∧ (run ["status"] wFresh).world = wFresh ∧
    (run ["status"] wFresh).stdout = [] ∧ (run ["status"] wFresh).stderr = [usageMsg] :=
  usage_error_no_filesystem_effect ["status"] wFresh (by decide)

end KervisWorkflow
